import Mathlib

/-!
Verification of the DESI spectroscopy tutorial notebooks.

The repository's own algorithmic content is small: an identifier-keyed join
between a redshift-fit table and a fibermap table (built with a Python
`defaultdict(list)`), a template-flux reconstruction (`flux.T.dot(coeff)` on a
sliced coefficient array, wavelengths stretched by `1 + z`), a resampling plus
resolution-matrix convolution, and an environment sanity check `check_env`.
Each of those fragments is embedded below as executable Lean definitions and
the spec's properties are proved about them.  Real numbers from the notebooks
are modelled as rationals so that every definition stays computable.
-/

namespace DesiTutorial

/-! ## The `defaultdict(list)` used by the join

The notebook builds the join with

```
dd = defaultdict(list)
for index, item in enumerate(zs["TARGETID"]):
    dd[item].append(index)
zqsos = [index for item in fm[qsos]["TARGETID"] for index in dd[item] if item in dd]
```

`DD` models the mutable `defaultdict(list)` state: the set of keys currently
present and the stored list for each key (a key that is absent stores the
default `[]`). -/

structure DD where
  keys : List Int
  val : Int → List Nat

def DD.empty : DD := ⟨[], fun _ => []⟩

/-- `dd[item]` on a `defaultdict(list)`: if the key is present, return its
stored list and leave the dict unchanged; if absent, insert the key with the
default empty list and return that list. -/
def DD.getitem (d : DD) (t : Int) : List Nat × DD :=
  if t ∈ d.keys then (d.val t, d)
  else ([], ⟨d.keys ++ [t], fun s => if s = t then [] else d.val s⟩)

/-- `dd[t].append(i)`: look the key up (inserting the default if absent) and
append `i` to the stored list in place. -/
def DD.append (d : DD) (t : Int) (i : Nat) : DD :=
  ⟨(d.getitem t).2.keys, fun s => if s = t then (d.getitem t).1 ++ [i] else (d.getitem t).2.val s⟩

/-- The index-building loop `for index, item in enumerate(zs): dd[item].append(index)`,
with `n` the value of `index` for the head of the remaining list. -/
def buildFrom (n : Nat) : List Int → DD → DD
  | [], d => d
  | t :: rest, d => buildFrom (n + 1) rest (d.append t n)

/-- The comprehension `[index for item in fmIds for index in dd[item] if item in dd]`:
for each target identifier, `dd[item]` is evaluated first (mutating the
defaultdict), then each index it holds is kept only if the guard
`item in dd` is true at that moment. -/
def joinGuarded : List Int → DD → List Nat
  | [], _ => []
  | t :: rest, d =>
      ((d.getitem t).1.filter (fun _ => decide (t ∈ (d.getitem t).2.keys))) ++
        joinGuarded rest (d.getitem t).2

/-- The same comprehension with the `if item in dd` guard removed. -/
def joinNoGuard : List Int → DD → List Nat
  | [], _ => []
  | t :: rest, d => (d.getitem t).1 ++ joinNoGuard rest (d.getitem t).2

/-- The notebook's `zqsos` join: build the defaultdict index over the fit
table's identifiers, then run the guarded comprehension over the target
identifiers. -/
def zqsos (zsIds fmIds : List Int) : List Nat :=
  joinGuarded fmIds (buildFrom 0 zsIds DD.empty)

/-- `zqsos` with the comprehension's guard removed. -/
def zqsosNoGuard (zsIds fmIds : List Int) : List Nat :=
  joinNoGuard fmIds (buildFrom 0 zsIds DD.empty)

/-- Spec-side description of the join: the positions (counting from `n`) of
the fit records whose identifier equals `t`, in the fit table's original
relative order. -/
def matchPos (n : Nat) (t : Int) : List Int → List Nat
  | [] => []
  | s :: rest => if s = t then n :: matchPos (n + 1) t rest else matchPos (n + 1) t rest

/-- Spec-side description of the join contract: for each target in its
original order, every matching fit position in original relative order,
flattened into one output list. -/
def joinSpec (zsIds fmIds : List Int) : List Nat :=
  (fmIds.map (fun t => matchPos 0 t zsIds)).flatten

/-! ### Invariant and basic lemmas about the defaultdict -/

/-- A well-formed defaultdict stores the default `[]` at every absent key. -/
def DD.Wf (d : DD) : Prop := ∀ t, t ∉ d.keys → d.val t = []

lemma DD.empty_wf : DD.empty.Wf := fun _ _ => rfl

lemma DD.mem_getitem_keys (d : DD) (t : Int) : t ∈ (d.getitem t).2.keys := by
  unfold DD.getitem
  by_cases h : t ∈ d.keys
  · simp [h]
  · simp [h]

lemma DD.getitem_fst (d : DD) (t : Int) (hw : d.Wf) : (d.getitem t).1 = d.val t := by
  unfold DD.getitem
  by_cases h : t ∈ d.keys
  · simp [h]
  · simp [h, hw t h]

lemma DD.getitem_val (d : DD) (t s : Int) (hw : d.Wf) : (d.getitem t).2.val s = d.val s := by
  unfold DD.getitem
  by_cases h : t ∈ d.keys
  · simp [h]
  · by_cases hs : s = t
    · simp [h, hs, hw t h]
    · simp [h, hs]

lemma DD.getitem_wf (d : DD) (t : Int) (hw : d.Wf) : (d.getitem t).2.Wf := by
  intro s hs
  rw [d.getitem_val t s hw]
  apply hw
  intro hmem
  apply hs
  unfold DD.getitem at *
  by_cases h : t ∈ d.keys
  · simpa [h] using hmem
  · simp only [h, if_false] at hs ⊢
    simp [hmem]

lemma DD.append_val (d : DD) (t : Int) (i : Nat) (s : Int) (hw : d.Wf) :
    (d.append t i).val s = if s = t then d.val s ++ [i] else d.val s := by
  unfold DD.append
  by_cases hs : s = t
  · simp only [hs, if_true]
    rw [d.getitem_fst t hw]
  · simp only [hs, if_false]
    rw [d.getitem_val t s hw]

lemma DD.append_wf (d : DD) (t : Int) (i : Nat) (hw : d.Wf) : (d.append t i).Wf := by
  intro s hs
  have hkeys : (d.append t i).keys = (d.getitem t).2.keys := rfl
  rw [hkeys] at hs
  have hst : s ≠ t := by
    intro h
    exact hs (h ▸ d.mem_getitem_keys t)
  show (fun s => if s = t then (d.getitem t).1 ++ [i] else (d.getitem t).2.val s) s = []
  simp only [hst, if_false]
  exact d.getitem_wf t hw s hs

lemma buildFrom_wf (l : List Int) : ∀ (n : Nat) (d : DD), d.Wf → (buildFrom n l d).Wf := by
  induction l with
  | nil => intro n d hw; exact hw
  | cons t rest ih =>
      intro n d hw
      exact ih (n + 1) (d.append t n) (d.append_wf t n hw)

lemma buildFrom_val (l : List Int) : ∀ (n : Nat) (d : DD) (t : Int), d.Wf →
    (buildFrom n l d).val t = d.val t ++ matchPos n t l := by
  induction l with
  | nil => intro n d t _; simp [buildFrom, matchPos]
  | cons s rest ih =>
      intro n d t hw
      unfold buildFrom
      rw [ih (n + 1) (d.append s n) t (d.append_wf s n hw)]
      rw [d.append_val s n t hw]
      by_cases h : s = t
      · subst h
        simp [matchPos, List.append_assoc]
      · have ht : ¬ t = s := fun hts => h hts.symm
        simp [matchPos, h, ht]

lemma joinGuarded_eq_noGuard (fm : List Int) : ∀ d : DD, joinGuarded fm d = joinNoGuard fm d := by
  induction fm with
  | nil => intro d; rfl
  | cons t rest ih =>
      intro d
      unfold joinGuarded joinNoGuard
      rw [ih (d.getitem t).2]
      congr 1
      have hg : (fun (_ : Nat) => decide (t ∈ (d.getitem t).2.keys)) = fun _ => true := by
        funext x
        exact decide_eq_true (d.mem_getitem_keys t)
      rw [hg, List.filter_true]

lemma joinNoGuard_eq (fm : List Int) : ∀ d : DD, d.Wf →
    joinNoGuard fm d = (fm.map d.val).flatten := by
  induction fm with
  | nil => intro d _; rfl
  | cons t rest ih =>
      intro d hw
      unfold joinNoGuard
      rw [ih (d.getitem t).2 (d.getitem_wf t hw)]
      have hval : (d.getitem t).2.val = d.val := funext (fun s => d.getitem_val t s hw)
      rw [hval, d.getitem_fst t hw]
      simp [List.flatten]

lemma zqsos_eq_joinSpec (zsIds fmIds : List Int) : zqsos zsIds fmIds = joinSpec zsIds fmIds := by
  unfold zqsos joinSpec
  rw [joinGuarded_eq_noGuard, joinNoGuard_eq _ _ (buildFrom_wf zsIds 0 DD.empty DD.empty_wf)]
  congr 1
  apply List.map_congr_left
  intro t _
  rw [buildFrom_val zsIds 0 DD.empty t DD.empty_wf]
  rfl

lemma matchPos_of_not_mem (t : Int) (l : List Int) (h : t ∉ l) :
    ∀ n, matchPos n t l = [] := by
  induction l with
  | nil => intro n; rfl
  | cons s rest ih =>
      intro n
      have hs : ¬ s = t := by
        intro hst
        exact h (hst ▸ List.mem_cons_self s rest)
      have hrest : t ∉ rest := fun hm => h (List.mem_cons_of_mem s hm)
      unfold matchPos
      simp [hs, ih hrest]

/-! ## Template reconstruction

The notebook computes

```
ncoeff = templates[fulltype].flux.shape[0]
coeff = zbest['COEFF'][i][0:ncoeff]
tflux = templates[fulltype].flux.T.dot(coeff)
twave = templates[fulltype].wave * (1+z)
```

The template basis `flux` is a list of basis vectors (rows), each a flux
vector over the rest-frame wavelength grid.  `flux.T.dot(coeff)` takes, at
each wavelength bin, the dot product of the column of basis values with the
coefficient vector. -/

def dot1 (u v : List ℚ) : ℚ := (List.zipWith (fun a b => a * b) u v).sum

def vecScale (k : ℚ) (v : List ℚ) : List ℚ := v.map (fun x => k * x)

/-- `flux.T`: the transpose of the (rectangular, as all numpy arrays are)
basis matrix; row `j` of the result is the `j`-th column of the input, the
column count being the length of the first row. -/
def transposeM (m : List (List ℚ)) : List (List ℚ) :=
  match m with
  | [] => []
  | r0 :: _ => (List.range r0.length).map (fun j => m.map (fun row => row.getD j 0))

/-- `flux.T.dot(coeff)`: the coefficient-weighted combination of the basis
rows, one entry per wavelength bin (per row of the transposed basis). -/
def tflux (flux : List (List ℚ)) (coeff : List ℚ) : List ℚ :=
  (transposeM flux).map (fun row => dot1 row coeff)

/-- `twave = wave * (1+z)`: elementwise stretch of the rest-frame wavelength
grid into the observed frame. -/
def twave (wave : List ℚ) (z : ℚ) : List ℚ := wave.map (fun w => w * (1 + z))

/-- `flux.T.dot(coeff)` with numpy's shape check made explicit: the dot of the
`(nwave, ncoeff)` transposed basis with a vector requires the vector's length
to equal `ncoeff` (the number of basis rows); otherwise numpy raises a
`ValueError`, modelled as `none`. -/
def tfluxNp (flux : List (List ℚ)) (coeff : List ℚ) : Option (List ℚ) :=
  if coeff.length = flux.length then some (tflux flux coeff) else none

/-- The notebook's full coefficient handling: slice `zbest['COEFF'][i][0:ncoeff]`
(Python slicing truncates silently) and apply the basis, where
`ncoeff = flux.shape[0]` is the number of basis rows. -/
def reconstruct (flux : List (List ℚ)) (stored : List ℚ) : List ℚ :=
  tflux flux (stored.take flux.length)

lemma dot1_vecScale (k : ℚ) : ∀ (u v : List ℚ), dot1 u (vecScale k v) = k * dot1 u v := by
  intro u
  induction u with
  | nil => intro v; simp [dot1]
  | cons a u ih =>
      intro v
      cases v with
      | nil => simp [dot1, vecScale]
      | cons b v =>
          have hv := ih v
          simp only [dot1, vecScale, List.map, List.zipWith, List.sum_cons] at hv ⊢
          rw [hv]
          ring

/-! ## Resampling and resolution convolution

The notebook computes

```
R = Resolution(spectra.resolution_data['r'][i])
txflux = R.dot(resample_flux(spectra.wave['r'], twave, tflux))
```

`resample_flux` and `Resolution` live in the external `desispec` library, so
they are modelled from the spec: "resample the model onto the instrument's
wavelength grid (interpolation) and apply the instrument's ... resolution
operator ... via matrix-vector multiplication". -/

/-- Modelled from the spec: linear interpolation of the sample points
`(xs, ys)` at the point `x`, clamping to the first and last sample outside
the grid (the `desispec.interpolation.resample_flux` call is external to the
repository). -/
def interp (x : ℚ) : List ℚ → List ℚ → ℚ
  | [_], y1 :: _ => y1
  | x1 :: x2 :: xs, y1 :: y2 :: ys =>
      if x ≤ x1 then y1
      else if x ≤ x2 then y1 + (y2 - y1) * (x - x1) / (x2 - x1)
      else interp x (x2 :: xs) (y2 :: ys)
  | _, _ => 0

/-- Modelled from the spec: resampling of the model `(xin, yin)` onto the
instrument wavelength grid `xout` by interpolation. -/
def resample_flux (xout xin yin : List ℚ) : List ℚ :=
  xout.map (fun x => interp x xin yin)

def zeros (n : Nat) : List ℚ := List.replicate n 0

/-- Modelled from the spec: the identity resolution matrix of size `n`. -/
def idMat : Nat → List (List ℚ)
  | 0 => []
  | n + 1 => (1 :: zeros n) :: (idMat n).map (fun row => 0 :: row)

/-- `R.dot(v)`: matrix-vector multiplication by the resolution operator. -/
def matVec (R : List (List ℚ)) (v : List ℚ) : List ℚ := R.map (fun row => dot1 row v)

/-- The notebook's `txflux`: resample the (already redshifted) model onto the
instrument grid, then convolve with the resolution matrix. -/
def txflux (R : List (List ℚ)) (waveOut waveIn flux : List ℚ) : List ℚ :=
  matVec R (resample_flux waveOut waveIn flux)

lemma interp_head (x x1 : ℚ) (xs ys : List ℚ) (y1 : ℚ) (hlen : xs.length = ys.length)
    (hx : x ≤ x1) : interp x (x1 :: xs) (y1 :: ys) = y1 := by
  cases xs with
  | nil =>
      cases ys with
      | nil => rfl
      | cons b bs => simp at hlen
  | cons x2 xs =>
      cases ys with
      | nil => simp at hlen
      | cons y2 ys => simp [interp, hx]

lemma interp_step (x x1 x2 : ℚ) (xs ys : List ℚ) (y1 y2 : ℚ)
    (h1 : x1 < x2) (hx : x2 < x) :
    interp x (x1 :: x2 :: xs) (y1 :: y2 :: ys) = interp x (x2 :: xs) (y2 :: ys) := by
  have hn1 : ¬ x ≤ x1 := not_le.mpr (lt_trans h1 hx)
  have hn2 : ¬ x ≤ x2 := not_le.mpr hx
  simp [interp, hn1, hn2]

lemma interp_second (x1 x2 : ℚ) (xs ys : List ℚ) (y1 y2 : ℚ) (h1 : x1 < x2)
    (_hlen : xs.length = ys.length) :
    interp x2 (x1 :: x2 :: xs) (y1 :: y2 :: ys) = y2 := by
  have hn1 : ¬ x2 ≤ x1 := not_le.mpr h1
  have hne : x2 - x1 ≠ 0 := sub_ne_zero.mpr (ne_of_gt h1)
  simp only [interp, hn1, if_false, le_refl, if_true]
  rw [mul_div_assoc, div_self hne, mul_one]
  ring

/-- Resampling a model onto its own (strictly increasing) wavelength grid is
the identity. -/
theorem resample_id : ∀ (xin yin : List ℚ), List.Chain' (fun a b => a < b) xin →
    xin.length = yin.length → resample_flux xin xin yin = yin
  | [], [], _, _ => rfl
  | [], _ :: _, _, hl => by simp at hl
  | _ :: _, [], _, hl => by simp at hl
  | [x1], y1 :: ys, _, hl => by
      cases ys with
      | nil => rfl
      | cons b bs => simp at hl
  | x1 :: x2 :: xs, [y1], _, hl => by simp at hl
  | x1 :: x2 :: xs, y1 :: y2 :: ys, hc, hl => by
      have hlen : xs.length = ys.length := by
        simpa using hl
      have h12 : x1 < x2 := List.Chain'.rel_head hc
      have hctail : List.Chain' (fun a b => a < b) (x2 :: xs) := List.Chain'.tail hc
      have ih := resample_id (x2 :: xs) (y2 :: ys) hctail (by simpa using hl)
      unfold resample_flux at ih ⊢
      simp only [List.map]
      have hhead : interp x1 (x1 :: x2 :: xs) (y1 :: y2 :: ys) = y1 :=
        interp_head x1 x1 (x2 :: xs) (y2 :: ys) y1 (by simpa using hl) le_rfl
      rw [hhead]
      congr 1
      have hmono : ∀ a ∈ xs, x2 < a := by
        have hp : List.Pairwise (fun a b => a < b) (x2 :: xs) :=
          (List.chain'_iff_pairwise).mp hctail
        intro a ha
        exact (List.pairwise_cons.mp hp).1 a ha
      have hcong : ∀ a ∈ x2 :: xs,
          interp a (x1 :: x2 :: xs) (y1 :: y2 :: ys) = interp a (x2 :: xs) (y2 :: ys) := by
        intro a ha
        rcases List.mem_cons.mp ha with h | h
        · subst h
          rw [interp_second x1 a xs ys y1 y2 h12 hlen]
          exact (interp_head a a xs ys y2 hlen le_rfl).symm
        · exact interp_step a x1 x2 xs ys y1 y2 h12 (hmono a h)
      calc (x2 :: xs).map (fun a => interp a (x1 :: x2 :: xs) (y1 :: y2 :: ys))
          = (x2 :: xs).map (fun a => interp a (x2 :: xs) (y2 :: ys)) :=
            List.map_congr_left hcong
        _ = y2 :: ys := ih

lemma dot1_zeros : ∀ (n : Nat) (v : List ℚ), dot1 (zeros n) v = 0 := by
  intro n
  induction n with
  | zero => intro v; simp [dot1, zeros]
  | succ n ih =>
      intro v
      cases v with
      | nil => simp [dot1]
      | cons a v =>
          have h := ih v
          simp only [zeros, List.replicate, dot1, List.zipWith, List.sum_cons] at h ⊢
          simpa using h

lemma matVec_idMat : ∀ v : List ℚ, matVec (idMat v.length) v = v := by
  intro v
  induction v with
  | nil => rfl
  | cons a v ih =>
      show matVec ((1 :: zeros v.length) :: (idMat v.length).map (fun row => 0 :: row)) (a :: v)
        = a :: v
      unfold matVec
      simp only [List.map, List.map_map]
      have h1 : dot1 (1 :: zeros v.length) (a :: v) = a := by
        simp only [dot1, List.zipWith, List.sum_cons]
        have hz := dot1_zeros v.length v
        unfold dot1 at hz
        rw [hz]
        ring
      have hcong : ((fun row => dot1 row (a :: v)) ∘ fun row => (0 : ℚ) :: row)
          = fun row => dot1 row v := by
        funext row
        show dot1 (0 :: row) (a :: v) = dot1 row v
        simp [dot1]
      rw [h1, hcong]
      exact congrArg (a :: ·) ih

/-! ## The environment sanity check

```
def check_env():
    for env in ('DESI_SPECTRO_REDUX', 'SPECPROD'):
        if env in os.environ:
            print('${}={}'.format(env, os.getenv(env)))
        else:
            print('Required environment variable {} not set!'.format(env))

    reduxdir = desispec.io.specprod_root()
    if not os.path.exists(reduxdir):
        print("ERROR: {} doesn't exist; check $DESI_SPECTRO_REDUX/$SPECPROD".format(reduxdir))
    else:
        print('OK: {} exists'.format(reduxdir))
```

The ambient process state is modelled by `SysEnv`: the environment variables,
the filesystem existence test, and the directory returned by the external
helper `desispec.io.specprod_root()`.  `check_env` returns the list of
printed lines; its codomain is a plain list (no exception / `Except`), which
is the shallow embedding of "prints a diagnostic and returns normally rather
than raising". -/

structure SysEnv where
  getenv : String → Option String
  pathExists : String → Bool
  specprodRoot : String

/-- One iteration of the loop over the two required variable names. -/
def envReport (e : SysEnv) (v : String) : String :=
  match e.getenv v with
  | some s => "$" ++ v ++ "=" ++ s
  | none => "Required environment variable " ++ v ++ " not set!"

/-- The lines printed by `check_env`, in order. -/
def check_env (e : SysEnv) : List String :=
  [envReport e "DESI_SPECTRO_REDUX", envReport e "SPECPROD",
   if e.pathExists e.specprodRoot then
     "OK: " ++ e.specprodRoot ++ " exists"
   else
     "ERROR: " ++ e.specprodRoot ++ " doesn't exist; check $DESI_SPECTRO_REDUX/$SPECPROD"]

/-! ## The frame of the join and of the reconstruction

To state that the notebook's own operations never write to the input tables,
the join loop and the comprehension are re-run as explicit state
transformers over a state holding both tables and the local defaultdict;
each step rebuilds the whole state, so preservation of the table fields is a
statement about the loop, not a definitional triviality of a record
update. -/

structure JoinState where
  zs : List Int
  fm : List Int
  dd : DD

/-- `for index, item in enumerate(zs): dd[item].append(index)` as a state
transformer; only the defaultdict component is written. -/
def buildLoop (n : Nat) : List Int → JoinState → JoinState
  | [], s => s
  | t :: rest, s => buildLoop (n + 1) rest ⟨s.zs, s.fm, s.dd.append t n⟩

/-- The guarded comprehension as a state transformer: each `dd[item]` lookup
may mutate the defaultdict (inserting a missing key), and the emitted indices
are accumulated. -/
def compLoop : List Int → JoinState → List Nat × JoinState
  | [], s => ([], s)
  | t :: rest, s =>
      ((((s.dd.getitem t).1.filter (fun _ => decide (t ∈ (s.dd.getitem t).2.keys))) ++
          (compLoop rest ⟨s.zs, s.fm, (s.dd.getitem t).2⟩).1),
        (compLoop rest ⟨s.zs, s.fm, (s.dd.getitem t).2⟩).2)

/-- The whole join cell: run the index-building loop over the fit table's
identifiers, then the comprehension over the target identifiers. -/
def runJoin (s : JoinState) : List Nat × JoinState :=
  (compLoop (buildLoop 0 s.zs s).fm (buildLoop 0 s.zs s))

structure ReconState where
  flux : List (List ℚ)
  wave : List ℚ
  coeffArr : List ℚ
  z : ℚ

/-- The reconstruction cell as a state transformer: slice the stored
coefficients, form `tflux` and `twave`, and return the resulting arrays
alongside the (read-only) state. -/
def reconRun (s : ReconState) : (List ℚ × List ℚ) × ReconState :=
  ((tflux s.flux (s.coeffArr.take s.flux.length), twave s.wave s.z), s)

lemma buildLoop_zs (l : List Int) : ∀ (n : Nat) (s : JoinState),
    (buildLoop n l s).zs = s.zs ∧ (buildLoop n l s).fm = s.fm := by
  induction l with
  | nil => intro n s; exact ⟨rfl, rfl⟩
  | cons t rest ih =>
      intro n s
      exact ih (n + 1) ⟨s.zs, s.fm, s.dd.append t n⟩

lemma compLoop_zs (l : List Int) : ∀ s : JoinState,
    (compLoop l s).2.zs = s.zs ∧ (compLoop l s).2.fm = s.fm := by
  induction l with
  | nil => intro s; exact ⟨rfl, rfl⟩
  | cons t rest ih =>
      intro s
      exact ih ⟨s.zs, s.fm, (s.dd.getitem t).2⟩

/-! ## Claim theorems -/

/-- C1: for every sequence of fit identifiers and every sequence of target
identifiers, the identifier-keyed join returns, for each target in its
original order, every fit position whose identifier equals the target's, in
the fit table's original relative order, flattened into one output entry per
matching position; on the spec's example, target ids `[5,7,5]` against fit
ids `[7,5,5,9]` yield `[1,2]`, `[0]`, `[1,2]`. -/
theorem join_matches_spec :
    (∀ zsIds fmIds : List Int, zqsos zsIds fmIds = joinSpec zsIds fmIds) ∧
      zqsos [7, 5, 5, 9] [5, 7, 5] = [1, 2, 0, 1, 2] :=
  ⟨zqsos_eq_joinSpec, by decide⟩

/-- C2: a target whose identifier occurs nowhere in the fit table contributes
zero output entries — deleting such a target from the target sequence leaves
the join output unchanged.  The join is a total function into `List Nat`, so
the mismatch is silently dropped, never signalled. -/
theorem join_silent_drop (zsIds fm1 fm2 : List Int) (t : Int) (h : t ∉ zsIds) :
    zqsos zsIds (fm1 ++ t :: fm2) = zqsos zsIds (fm1 ++ fm2) := by
  rw [zqsos_eq_joinSpec, zqsos_eq_joinSpec]
  unfold joinSpec
  rw [List.map_append, List.map_append, List.map_cons]
  rw [matchPos_of_not_mem t zsIds h 0]
  simp

theorem join_silent_drop_witness :
    (3 : Int) ∉ ([7, 5, 5, 9] : List Int) ∧
      zqsos [7, 5, 5, 9] [5, 3, 7] = zqsos [7, 5, 5, 9] [5, 7] :=
  ⟨by decide, join_silent_drop [7, 5, 5, 9] [5] [7] 3 (by decide)⟩

/-- C3: template reconstruction is linear in the coefficients — scaling every
coefficient by `k` scales the reconstructed model flux by `k` at every
wavelength bin (the equality of the full flux lists). -/
theorem tflux_linear_in_coeff (flux : List (List ℚ)) (coeff : List ℚ) (k : ℚ) :
    tflux flux (vecScale k coeff) = vecScale k (tflux flux coeff) := by
  unfold tflux vecScale
  rw [List.map_map]
  apply List.map_congr_left
  intro row _
  exact dot1_vecScale k row coeff

/-- C4: redshift-stretching is monotonic and scale-exact — the observed grid
has the same length as the rest grid, each observed wavelength equals the
corresponding rest wavelength times `1 + z` exactly, a strictly increasing
grid stays strictly increasing whenever `z > -1`, and at `z = 0` the observed
grid is identical to the rest grid. -/
theorem twave_scale_exact (wave : List ℚ) (z : ℚ) :
    (twave wave z).length = wave.length ∧
    (∀ (i : Nat) (h1 : i < (twave wave z).length) (h2 : i < wave.length),
        (twave wave z).get ⟨i, h1⟩ = wave.get ⟨i, h2⟩ * (1 + z)) ∧
    (-1 < z → List.Chain' (fun a b => a < b) wave →
        List.Chain' (fun a b => a < b) (twave wave z)) ∧
    twave wave 0 = wave := by
  refine ⟨by simp [twave], ?_, ?_, by simp [twave]⟩
  · intro i h1 h2
    simp [twave, List.get_eq_getElem, List.getElem_map]
  · intro hz hc
    have hpos : (0 : ℚ) < 1 + z := by linarith
    rw [twave, List.chain'_map]
    exact hc.imp (fun a b hab => mul_lt_mul_of_pos_right hab hpos)

theorem twave_scale_exact_witness :
    (twave [1, 2] (1/2)).get ⟨0, by norm_num [twave]⟩ = 1 * (1 + 1/2) ∧
    (-1 : ℚ) < 1/2 ∧ List.Chain' (fun a b => a < b) ([1, 2] : List ℚ) ∧
    List.Chain' (fun a b => a < b) (twave [1, 2] (1/2)) ∧
    twave [3, 4] 0 = [3, 4] :=
  ⟨(twave_scale_exact [1, 2] (1/2)).2.1 0 (by norm_num [twave]) (by norm_num),
   by norm_num, by norm_num,
   (twave_scale_exact [1, 2] (1/2)).2.2.1 (by norm_num) (by norm_num),
   (twave_scale_exact [3, 4] 0).2.2.2⟩

/-- C5: a supplied coefficient vector whose length differs from the number of
basis rows is not handled defensively by the reconstruction: the dot product
fails (numpy's shape error, modelled as `none`) with no guard or adjustment,
and a stored coefficient array shorter than `ncoeff` still produces such a
mismatched vector after the `[0:ncoeff]` slice, because Python slicing
truncates silently. -/
theorem coeff_mismatch_unguarded :
    (∀ (flux : List (List ℚ)) (coeff : List ℚ), coeff.length ≠ flux.length →
        tfluxNp flux coeff = none) ∧
    (∀ (flux : List (List ℚ)) (stored : List ℚ), stored.length < flux.length →
        tfluxNp flux (stored.take flux.length) = none) := by
  constructor
  · intro flux coeff h
    unfold tfluxNp
    exact if_neg h
  · intro flux stored h
    unfold tfluxNp
    rw [if_neg]
    rw [List.length_take]
    omega

theorem coeff_mismatch_unguarded_witness :
    (([3, 4, 5] : List ℚ).length ≠ ([[1, 0], [0, 1]] : List (List ℚ)).length) ∧
    tfluxNp [[1, 0], [0, 1]] [3, 4, 5] = none ∧
    (([3] : List ℚ).length < ([[1, 0], [0, 1]] : List (List ℚ)).length) ∧
    tfluxNp [[1, 0], [0, 1]] (([3] : List ℚ).take 2) = none :=
  ⟨by decide, coeff_mismatch_unguarded.1 [[1, 0], [0, 1]] [3, 4, 5] (by decide),
   by decide, coeff_mismatch_unguarded.2 [[1, 0], [0, 1]] [3] (by decide)⟩

/-- C6: resampling followed by resolution convolution is the identity when
the resolution operator is the identity matrix and the instrument wavelength
grid equals the model's (strictly increasing) source grid; over `ℚ` the
identity is exact. -/
theorem resample_convolve_identity (flux wave : List ℚ)
    (hw : List.Chain' (fun a b => a < b) wave) (hl : flux.length = wave.length) :
    txflux (idMat wave.length) wave wave flux = flux := by
  unfold txflux
  rw [resample_id wave flux hw hl.symm]
  rw [← hl]
  exact matVec_idMat flux

theorem resample_convolve_identity_witness :
    List.Chain' (fun a b => a < b) ([1, 2] : List ℚ) ∧
    (([5, 6] : List ℚ).length = ([1, 2] : List ℚ).length) ∧
    txflux (idMat ([1, 2] : List ℚ).length) [1, 2] [1, 2] [5, 6] = [5, 6] :=
  ⟨by norm_num, by decide,
   resample_convolve_identity [5, 6] [1, 2] (by norm_num) (by decide)⟩

/-- C7: for every ambient environment state, `check_env` prints exactly three
lines and returns them (its codomain is `List String`, so it always returns
normally, never raising); a missing `DESI_SPECTRO_REDUX` or `SPECPROD`
variable and a missing production directory each put the corresponding
diagnostic line in the output, and an existing directory reports `OK`. -/
theorem check_env_diagnostics (e : SysEnv) :
    (check_env e).length = 3 ∧
    (e.getenv "DESI_SPECTRO_REDUX" = none →
        "Required environment variable DESI_SPECTRO_REDUX not set!" ∈ check_env e) ∧
    (e.getenv "SPECPROD" = none →
        "Required environment variable SPECPROD not set!" ∈ check_env e) ∧
    (e.pathExists e.specprodRoot = false →
        ("ERROR: " ++ e.specprodRoot ++ " doesn't exist; check $DESI_SPECTRO_REDUX/$SPECPROD")
          ∈ check_env e) ∧
    (e.pathExists e.specprodRoot = true →
        ("OK: " ++ e.specprodRoot ++ " exists") ∈ check_env e) := by
  refine ⟨rfl, ?_, ?_, ?_, ?_⟩
  · intro h
    simp [check_env, envReport, h]
  · intro h
    simp [check_env, envReport, h]
  · intro h
    simp [check_env, h]
  · intro h
    simp [check_env, h]

theorem check_env_diagnostics_witness :
    (SysEnv.mk (fun _ => none) (fun _ => false) "X").getenv "DESI_SPECTRO_REDUX" = none ∧
    "Required environment variable DESI_SPECTRO_REDUX not set!" ∈
      check_env (SysEnv.mk (fun _ => none) (fun _ => false) "X") ∧
    ("ERROR: " ++ "X" ++ " doesn't exist; check $DESI_SPECTRO_REDUX/$SPECPROD") ∈
      check_env (SysEnv.mk (fun _ => none) (fun _ => false) "X") :=
  ⟨rfl, (check_env_diagnostics (SysEnv.mk (fun _ => none) (fun _ => false) "X")).2.1 rfl,
   (check_env_diagnostics (SysEnv.mk (fun _ => none) (fun _ => false) "X")).2.2.2.1 rfl⟩

/-- C8: the repository's own operations never write to their input records:
running the whole join as a state transformer leaves the fit table and the
fibermap table exactly as they were, and the reconstruction leaves the basis,
wavelength grid, stored coefficients and redshift unchanged. -/
theorem join_recon_frame :
    (∀ s : JoinState, (runJoin s).2.zs = s.zs ∧ (runJoin s).2.fm = s.fm) ∧
    (∀ r : ReconState, (reconRun r).2 = r) := by
  constructor
  · intro s
    unfold runJoin
    have hb := buildLoop_zs s.zs 0 s
    have hc := compLoop_zs (buildLoop 0 s.zs s).fm (buildLoop 0 s.zs s)
    exact ⟨hc.1.trans hb.1, hc.2.trans hb.2⟩
  · intro r
    rfl

/-- C9: in the join comprehension, the guard `item in dd` is always true at
the moment it is evaluated, because evaluating `dd[item]` on the defaultdict
first inserts a missing identifier with an empty list; consequently the
comprehension's output is identical to the same comprehension with the guard
removed, for every pair of identifier sequences. -/
theorem guard_always_true :
    (∀ (d : DD) (t : Int), t ∈ (d.getitem t).2.keys) ∧
    (∀ zsIds fmIds : List Int, zqsos zsIds fmIds = zqsosNoGuard zsIds fmIds) := by
  constructor
  · exact fun d t => d.mem_getitem_keys t
  · intro zsIds fmIds
    unfold zqsos zqsosNoGuard
    exact joinGuarded_eq_noGuard fmIds _

/-- C10: the reconstructed template flux depends only on the first `ncoeff`
entries of the stored coefficient array, `ncoeff` being the number of basis
rows: any two stored arrays of length at least `ncoeff` agreeing on their
first `ncoeff` entries reconstruct to the identical flux, so entries beyond
the basis size have no effect. -/
theorem recon_first_ncoeff_only (flux : List (List ℚ)) (c1 c2 : List ℚ)
    (_h1 : flux.length ≤ c1.length) (_h2 : flux.length ≤ c2.length)
    (h : c1.take flux.length = c2.take flux.length) :
    reconstruct flux c1 = reconstruct flux c2 := by
  unfold reconstruct
  rw [h]

theorem recon_first_ncoeff_only_witness :
    (([[1, 0], [0, 1]] : List (List ℚ)).length ≤ ([3, 4, 5] : List ℚ).length) ∧
    (([[1, 0], [0, 1]] : List (List ℚ)).length ≤ ([3, 4, 99] : List ℚ).length) ∧
    ([3, 4, 5] : List ℚ).take 2 = ([3, 4, 99] : List ℚ).take 2 ∧
    reconstruct [[1, 0], [0, 1]] [3, 4, 5] = reconstruct [[1, 0], [0, 1]] [3, 4, 99] :=
  ⟨by decide, by decide, by decide,
   recon_first_ncoeff_only [[1, 0], [0, 1]] [3, 4, 5] [3, 4, 99]
     (by decide) (by decide) (by decide)⟩

end DesiTutorial
